import Mathlib

/-
  Verification of the profile/backup state machine of cinnamon-profile-manager
  (src/main.ts) against its natural-language specification.

  The registry operations (createProfile, switchProfile, deleteProfile,
  readProfiles) and the capture/apply pipeline (createTimestampedBackup,
  restoreSettingsFromZip, zipDirectoryContents, selectBackupFile) are
  shallowly embedded as pure Lean functions.  External collaborators
  (the zip/unzip archive utility, the dconf dump/reset/load utility, the
  Deno filesystem primitives) are modelled by their interface contract:
  their success or failure enters as explicit boolean parameters, and
  pack/unpack are treated as faithful (extracting an archive yields
  exactly the staged entries).  Filesystem writes performed by the tool
  itself are assumed to succeed unless the source code inspects their
  outcome.
-/

namespace CinnamonProfileManager

/-- Registry entry, mirroring the Profile interface of src/main.ts
(name, active flag, lastModified ISO string, zipFile path). -/
structure Profile where
  name : String
  active : Bool
  lastModified : String
  zipFile : String
deriving Repr, DecidableEq

/-- Failure modes of createProfile that end with a nonzero exit. -/
inductive CreateError where
  | duplicateName
  | zipFailed
deriving Repr, DecidableEq

/-- Result of a createProfile run: the reported error (none on success)
together with the registry document as persisted after the call. -/
structure CreateOutcome where
  error : Option CreateError
  registry : List Profile
deriving Repr, DecidableEq

/-- Model of createProfile (src/main.ts lines 587-691).  The duplicate
check is performed on the registry as read; on zip success the registry
is re-read (sequentially identical), every active flag is cleared, and
the new profile is appended with active set.  On the duplicate and
zip-failure paths the registry document is never rewritten.  The zipOk
parameter models the exit status of the external zip invocation. -/
def createProfile (profiles : List Profile) (name now zipFile : String)
    (zipOk : Bool) : CreateOutcome :=
  if profiles.any (fun p => p.name == name) then
    { error := some CreateError.duplicateName, registry := profiles }
  else if zipOk then
    { error := none
      registry := profiles.map (fun p => { p with active := false })
        ++ [{ name := name, active := true, lastModified := now, zipFile := zipFile }] }
  else
    { error := some CreateError.zipFailed, registry := profiles }

/-- Registry mutation of a successful switch, first half (src/main.ts
line 1644): every active flag becomes the test p.name === name. -/
def setActiveFlags (profiles : List Profile) (name : String) : List Profile :=
  profiles.map (fun p => { p with active := p.name == name })

/-- Registry mutation of a successful switch, second half (src/main.ts
line 1645): the profile object found by find (the first entry with the
target name) gets its lastModified bumped. -/
def bumpFirstLastModified : List Profile → String → String → List Profile
  | [], _, _ => []
  | p :: ps, name, now =>
    if p.name == name then { p with lastModified := now } :: ps
    else p :: bumpFirstLastModified ps name now

/-- Registry mutation performed by switchProfile after a successful
apply (src/main.ts lines 1643-1646). -/
def switchApply (profiles : List Profile) (name now : String) : List Profile :=
  bumpFirstLastModified (setActiveFlags profiles name) name now

/-- Model of deleteProfile (src/main.ts lines 1675-1727): findIndex by
name, best-effort removal of the archive file, then splice of the entry
and a rewrite of the registry.  archiveRemoveOk models whether the
Deno.remove of the archive succeeded; the try/catch around it swallows
any failure, so the result cannot depend on it.  none models the
profile-not-found error exit (registry untouched). -/
def deleteProfile (profiles : List Profile) (name : String)
    (archiveRemoveOk : Bool) : Option (List Profile) :=
  match profiles.findIdx? (fun p => p.name == name) with
  | none => none
  | some i => some (profiles.eraseIdx i)

/-- Iterated createProfile calls: each call runs on the registry
document left by the previous one.  A call is (name, now, zipFile,
zipOk). -/
def runCreates (profiles : List Profile)
    (calls : List (String × String × String × Bool)) : List Profile :=
  calls.foldl
    (fun acc c => (createProfile acc c.1 c.2.1 c.2.2.1 c.2.2.2).registry)
    profiles

/-- Number of entries with the active flag set. -/
def countActive (profiles : List Profile) : Nat :=
  profiles.countP (fun p => p.active)

theorem bumpFirstLastModified_countActive (ps : List Profile) (name now : String) :
    countActive (bumpFirstLastModified ps name now) = countActive ps := by
  induction ps with
  | nil => rfl
  | cons p ps ih =>
    by_cases h : p.name == name <;>
      simp [bumpFirstLastModified, h, countActive, List.countP_cons] <;>
      simpa [countActive] using ih

theorem countActive_switchApply (ps : List Profile) (name now : String) :
    countActive (switchApply ps name now)
      = ps.countP (fun p => p.name == name) := by
  rw [switchApply, bumpFirstLastModified_countActive]
  unfold countActive setActiveFlags
  rw [List.countP_map]
  rfl

/-- C1: after any create, and after the apply-success branch of any
switch, exactly one profile is active.  For create this holds for every
starting registry; for switch it holds whenever the target name occurs
exactly once in the registry (which the uniqueness invariant C2
guarantees for reachable registries). -/
theorem C1_single_active_after_create_and_switch
    (ps₁ : List Profile) (name₁ now₁ zipFile₁ : String) (zipOk₁ : Bool)
    (ps₂ : List Profile) (name₂ now₂ : String)
    (hsucc : (createProfile ps₁ name₁ now₁ zipFile₁ zipOk₁).error = none)
    (hone : ps₂.countP (fun p => p.name == name₂) = 1) :
    countActive (createProfile ps₁ name₁ now₁ zipFile₁ zipOk₁).registry = 1
    ∧ countActive (switchApply ps₂ name₂ now₂) = 1 := by
  constructor
  · unfold createProfile at hsucc ⊢
    by_cases hdup : ps₁.any (fun p => p.name == name₁)
    · simp [hdup] at hsucc
    · by_cases hz : zipOk₁
      · simp only [hdup, if_false, hz, if_true, Bool.false_eq_true]
        simp [countActive, List.countP_append, List.countP_map, Function.comp,
          List.countP_eq_zero]
      · simp [hdup, hz] at hsucc
  · rw [countActive_switchApply]
    exact hone

/-- Witness for C1 at a concrete registry: create "work" on the empty
registry, and switch to "work" in a two-profile registry. -/
theorem C1_witness :
    countActive (createProfile [] "work" "t0" "work.zip" true).registry = 1
    ∧ countActive
        (switchApply
          [{ name := "work", active := false, lastModified := "t0", zipFile := "w.zip" },
           { name := "home", active := true, lastModified := "t1", zipFile := "h.zip" }]
          "work" "t2") = 1 :=
  C1_single_active_after_create_and_switch
    [] "work" "t0" "work.zip" true
    [{ name := "work", active := false, lastModified := "t0", zipFile := "w.zip" },
     { name := "home", active := true, lastModified := "t1", zipFile := "h.zip" }]
    "work" "t2" (by decide) (by decide)

theorem createProfile_names_nodup
    (ps : List Profile) (name now zipFile : String) (zipOk : Bool)
    (h : (ps.map (fun p => p.name)).Nodup) :
    (((createProfile ps name now zipFile zipOk).registry).map (fun p => p.name)).Nodup := by
  unfold createProfile
  by_cases hdup : ps.any (fun p => p.name == name)
  · rw [if_pos hdup]
    exact h
  · by_cases hz : zipOk
    · simp only [hdup, if_false, hz, if_true, Bool.false_eq_true]
      have hmem : name ∉ ps.map (fun p => p.name) := by
        intro hmem
        rcases List.mem_map.mp hmem with ⟨q, hq, hqname⟩
        have : ps.any (fun p => p.name == name) = true :=
          List.any_eq_true.mpr ⟨q, hq, by simp only [beq_iff_eq]; exact hqname⟩
        exact hdup this
      simp only [List.map_append, List.map_map]
      have hnames :
          (ps.map ((fun p => p.name) ∘ fun p => { p with active := false }))
            = ps.map (fun p => p.name) := by
        apply List.map_congr_left
        intro a _
        rfl
      rw [hnames]
      simp [List.nodup_append, h, hmem]
    · rw [if_neg hdup, if_neg hz]
      exact h

/-- C2: registry name uniqueness.  First conjunct: any sequence of
create calls starting from a registry with unique names (in particular
the empty registry) leaves the names unique.  Second conjunct: a create
whose name already exists reports the duplicate-name error and leaves
the registry document unchanged. -/
theorem C2_unique_names_and_duplicate_rejected
    (start : List Profile) (calls : List (String × String × String × Bool))
    (hstart : (start.map (fun p => p.name)).Nodup) :
    ((runCreates start calls).map (fun p => p.name)).Nodup
    ∧ ∀ (ps : List Profile) (name now zipFile : String) (zipOk : Bool),
        ps.any (fun p => p.name == name) = true →
        createProfile ps name now zipFile zipOk
          = { error := some CreateError.duplicateName, registry := ps } := by
  constructor
  · induction calls generalizing start with
    | nil => simpa [runCreates] using hstart
    | cons c rest ih =>
      have hstep := createProfile_names_nodup start c.1 c.2.1 c.2.2.1 c.2.2.2 hstart
      simpa [runCreates, List.foldl_cons] using ih _ hstep
  · intro ps name now zipFile zipOk hdup
    unfold createProfile
    rw [if_pos hdup]

/-- Witness for C2 at a concrete call sequence: two creates of distinct
names followed by a duplicate create, starting from the empty registry. -/
theorem C2_witness :
    ((runCreates []
        [("work", "t0", "w.zip", true), ("home", "t1", "h.zip", true),
         ("work", "t2", "w2.zip", true)]).map (fun p => p.name)).Nodup
    ∧ ∀ (ps : List Profile) (name now zipFile : String) (zipOk : Bool),
        ps.any (fun p => p.name == name) = true →
        createProfile ps name now zipFile zipOk
          = { error := some CreateError.duplicateName, registry := ps } :=
  C2_unique_names_and_duplicate_rejected []
    [("work", "t0", "w.zip", true), ("home", "t1", "h.zip", true),
     ("work", "t2", "w2.zip", true)]
    (by decide)

theorem findIdx?_first_match (l₁ l₂ : List Profile) (p : Profile) (name : String)
    (hname : p.name = name) (hfirst : ∀ q ∈ l₁, q.name ≠ name) :
    ∀ i : Nat, List.findIdx? (fun q => q.name == name) (l₁ ++ p :: l₂) i
      = some (i + l₁.length) := by
  induction l₁ with
  | nil =>
    intro i
    simp [List.findIdx?_cons, hname]
  | cons q l₁ ih =>
    intro i
    have hq : (q.name == name) = false := by
      simp [hfirst q (List.mem_cons_self q l₁)]
    have ih' := ih (fun r hr => hfirst r (List.mem_cons_of_mem q hr))
    simp only [List.cons_append, List.findIdx?_cons, hq, Bool.false_eq_true,
      if_false, ih' (i + 1)]
    congr 1
    simp [List.length_cons]
    omega

theorem eraseIdx_append_cons (l₁ l₂ : List Profile) (p : Profile) :
    (l₁ ++ p :: l₂).eraseIdx l₁.length = l₁ ++ l₂ := by
  induction l₁ with
  | nil => rfl
  | cons q l₁ ih => simp [List.eraseIdx, ih]

/-- C10: deleteProfile removes exactly the first entry carrying the
target name, leaves every other entry unchanged (its active flag and
lastModified included, since the surrounding entries are kept
verbatim), does so regardless of whether the archive file deletion
succeeded, and when the deleted entry was the only active one the
resulting registry has no active profile. -/
theorem C10_delete_removes_exactly_target
    (l₁ l₂ : List Profile) (p : Profile) (name : String) (ok ok' : Bool)
    (hname : p.name = name) (hfirst : ∀ q ∈ l₁, q.name ≠ name) :
    deleteProfile (l₁ ++ p :: l₂) name ok = some (l₁ ++ l₂)
    ∧ deleteProfile (l₁ ++ p :: l₂) name ok
        = deleteProfile (l₁ ++ p :: l₂) name ok'
    ∧ ((∀ q ∈ l₁ ++ p :: l₂, q.active = true → q.name = name) →
        (∀ q ∈ l₂, q.name ≠ name) →
        countActive (l₁ ++ l₂) = 0) := by
  have hdel : deleteProfile (l₁ ++ p :: l₂) name ok = some (l₁ ++ l₂) := by
    unfold deleteProfile
    rw [findIdx?_first_match l₁ l₂ p name hname hfirst 0]
    simp [eraseIdx_append_cons]
  refine ⟨hdel, ?_, ?_⟩
  · unfold deleteProfile
    rfl
  · intro hactive hl₂
    apply List.countP_eq_zero.mpr
    intro q hq
    simp only [List.mem_append] at hq
    intro hqa
    rcases hq with hq | hq
    · exact hfirst q hq
        (hactive q (List.mem_append.mpr (Or.inl hq)) hqa)
    · exact hl₂ q hq
        (hactive q (List.mem_append.mpr (Or.inr (List.mem_cons_of_mem p hq))) hqa)

/-- Witness for C10 at a concrete registry: delete the active profile
"home" out of a two-profile registry while the archive removal throws. -/
theorem C10_witness :
    deleteProfile
      [{ name := "work", active := false, lastModified := "t0", zipFile := "w.zip" },
       { name := "home", active := true, lastModified := "t1", zipFile := "h.zip" }]
      "home" false
      = some [{ name := "work", active := false, lastModified := "t0", zipFile := "w.zip" }]
    ∧ countActive [{ name := "work", active := false, lastModified := "t0", zipFile := "w.zip" }] = 0 := by
  have h := C10_delete_removes_exactly_target
    [{ name := "work", active := false, lastModified := "t0", zipFile := "w.zip" }]
    [] { name := "home", active := true, lastModified := "t1", zipFile := "h.zip" }
    "home" false true rfl (by decide)
  exact ⟨h.1, h.2.2 (by decide) (by decide)⟩

/-- Outcome of the registry JSON parse inside readProfiles, as seen by
the code: JSON.parse yields an array, yields a non-array value, or
throws. -/
inductive DocContent where
  | arrayOf (ps : List Profile)
  | nonArrayJson
  | notJson
deriving Repr, DecidableEq

/-- Observable outcome of a readProfiles call: the returned profile
list, the registry document afterwards (none when the file is absent),
the content of the timestamped quarantine side-file when one was
written, and whether an error escaped to the caller. -/
structure ReadOutcome where
  result : List Profile
  finalDoc : Option DocContent
  quarantine : Option DocContent
  threw : Bool
deriving Repr, DecidableEq

/-- Model of readProfiles (src/main.ts lines 229-275).  A missing file
returns the empty list without touching disk.  A valid array is
returned as-is.  Any other content takes the catch branch: the original
document is copied to a timestamped .corrupted side-file (inside its
own try/catch, so quarantineCopyOk models that copy failing without
escaping), the document is rewritten to the empty array, and the empty
list is returned; no path rethrows. -/
def readProfiles (doc : Option DocContent) (quarantineCopyOk : Bool) : ReadOutcome :=
  match doc with
  | none => { result := [], finalDoc := none, quarantine := none, threw := false }
  | some (DocContent.arrayOf ps) =>
      { result := ps, finalDoc := some (DocContent.arrayOf ps),
        quarantine := none, threw := false }
  | some d =>
      { result := [], finalDoc := some (DocContent.arrayOf []),
        quarantine := if quarantineCopyOk then some d else none, threw := false }

/-- C6: a registry document that is not a valid JSON array is recovered
by returning the empty list, quarantining the original content, and
resetting the document, with no error propagated. -/
theorem C6_corrupt_registry_recovered
    (doc : DocContent) (quarantineCopyOk : Bool)
    (hbad : ∀ ps, doc ≠ DocContent.arrayOf ps)
    (hq : quarantineCopyOk = true) :
    readProfiles (some doc) quarantineCopyOk
      = { result := [], finalDoc := some (DocContent.arrayOf []),
          quarantine := some doc, threw := false } := by
  subst hq
  cases doc with
  | arrayOf ps => exact absurd rfl (hbad ps)
  | nonArrayJson => rfl
  | notJson => rfl

/-- Witness for C6 at a concrete corrupted document. -/
theorem C6_witness :
    readProfiles (some DocContent.notJson) true
      = { result := [], finalDoc := some (DocContent.arrayOf []),
          quarantine := some DocContent.notJson, threw := false } :=
  C6_corrupt_registry_recovered DocContent.notJson true
    (fun ps h => by cases h) rfl

/-- Flat file tree of one source location: a list of relative-path and
byte-content pairs, looked up by first match. -/
abbrev FileMap : Type := List (String × String)

/-- Lookup of a path in a file tree. -/
def FileMap.find (m : FileMap) (path : String) : Option String :=
  (List.find? (fun e => e.1 == path) m).map Prod.snd

/-- Result of zipDirectoryContents: the boolean return value, whether
the empty-source warning was printed, and the entries packed into the
archive on success (the faithful-adapter reading of the external zip
invocation). -/
structure ZipOutcome where
  ok : Bool
  warnedEmpty : Bool
  archive : Option FileMap
deriving Repr, DecidableEq

/-- Model of zipDirectoryContents (src/main.ts lines 340-384).  An
unlistable source directory (Deno.readDir throwing) returns false.  An
empty source only prints a warning; the zip invocation still runs and
its exit status alone (zipToolOk) decides the result. -/
def zipDirectoryContents (sourceDir : Option FileMap) (zipToolOk : Bool) :
    ZipOutcome :=
  match sourceDir with
  | none => { ok := false, warnedEmpty := false, archive := none }
  | some entries =>
      if zipToolOk then
        { ok := true, warnedEmpty := entries.isEmpty, archive := some entries }
      else
        { ok := false, warnedEmpty := entries.isEmpty, archive := none }

/-- C8: zipping an existing source directory fails exactly when the
external tool fails, never because the directory is empty; on an empty
source with a working tool the call succeeds, surfaces the warning, and
produces the (valid, trivially extractable) empty archive. -/
theorem C8_empty_source_still_zips (entries : FileMap) (zipToolOk : Bool) :
    (zipDirectoryContents (some entries) zipToolOk).ok = zipToolOk
    ∧ zipDirectoryContents (some []) true
        = { ok := true, warnedEmpty := true, archive := some [] } := by
  constructor
  · cases zipToolOk <;> rfl
  · rfl

/-- Backup file entry as listed by selectBackupFile: filename, the
timestamp parsed from it (none when the fixed-format pattern does not
match or yields an invalid date), and the full path. -/
structure BackupFile where
  filename : String
  date : Option Int
  fullPath : String
deriving Repr, DecidableEq

/-- Ordering used by the backup sort comparator (src/main.ts lines
1506-1511): newest timestamp first, undated entries after all dated
ones, ties of undated entries by filename. -/
def backupLE (a b : BackupFile) : Bool :=
  match a.date, b.date with
  | none, none => decide (a.filename ≤ b.filename)
  | none, some _ => false
  | some _, none => true
  | some x, some y => decide (y ≤ x)

/-- Newest-first listing presented by selectBackupFile. -/
def sortBackups (files : List BackupFile) : List BackupFile :=
  files.mergeSort backupLE

theorem backupLE_trans (a b c : BackupFile) (hab : backupLE a b = true)
    (hbc : backupLE b c = true) : backupLE a c = true := by
  unfold backupLE at *
  cases ha : a.date <;> cases hb : b.date <;> cases hc : c.date <;>
    simp_all [decide_eq_true_iff]
  · exact le_trans hab hbc
  · exact le_trans hbc hab

theorem backupLE_total (a b : BackupFile) :
    (backupLE a b || backupLE b a) = true := by
  unfold backupLE
  cases ha : a.date <;> cases hb : b.date <;>
    simp_all [decide_eq_true_iff]
  · exact le_total _ _
  · exact le_total _ _

/-- Outcome of a selectBackupFile call: no backups listed, a clean
cancel (null returned with no error message), an invalid-selection
error (null returned after the error message, no retry), or a chosen
backup path. -/
inductive SelectResult where
  | noBackups
  | cancelled
  | invalid
  | selected (fullPath : String)
deriving Repr, DecidableEq

/-- Whitespace skipped by the JavaScript parseInt before reading the
number. -/
def isJsWhitespace (c : Char) : Bool :=
  c == ' ' || c == '\t' || c == '\n' || c == '\r' || c == '\x0b' || c == '\x0c'

/-- Value of the longest leading run of decimal digits; none when the
run is empty (parseInt NaN). -/
def decDigitsVal : List Char → Nat → Bool → Option Nat
  | [], acc, seen => if seen then some acc else none
  | c :: cs, acc, seen =>
      if c.isDigit then
        decDigitsVal cs (acc * 10 + (c.toNat - 48)) true
      else if seen then some acc else none

/-- Hexadecimal digit value, by code point range (0-9, a-f, A-F). -/
def hexDigitVal (c : Char) : Option Nat :=
  let n := c.toNat
  if 48 ≤ n && n ≤ 57 then some (n - 48)
  else if 97 ≤ n && n ≤ 102 then some (n - 87)
  else if 65 ≤ n && n ≤ 70 then some (n - 55)
  else none

/-- Value of the longest leading run of hexadecimal digits. -/
def hexDigitsVal : List Char → Nat → Bool → Option Nat
  | [], acc, seen => if seen then some acc else none
  | c :: cs, acc, seen =>
      match hexDigitVal c with
      | some v => hexDigitsVal cs (acc * 16 + v) true
      | none => if seen then some acc else none

/-- Model of the JavaScript parseInt(string) with no radix argument:
skip leading whitespace, read an optional sign, then either a 0x/0X
hexadecimal literal or a leading run of decimal digits; none models
NaN. -/
def parseIntJS (s : String) : Option Int :=
  let cs := s.toList.dropWhile isJsWhitespace
  let signAndBody : Bool × List Char :=
    match cs with
    | '-' :: r => (true, r)
    | '+' :: r => (false, r)
    | _ => (false, cs)
  let mag : Option Nat :=
    match signAndBody.2 with
    | '0' :: 'x' :: r => hexDigitsVal r 0 false
    | '0' :: 'X' :: r => hexDigitsVal r 0 false
    | body => decDigitsVal body 0 false
  mag.map (fun n => if signAndBody.1 then -(n : Int) else (n : Int))

/-- Model of selectBackupFile (src/main.ts lines 1385-1558) from the
listing step onward: files carries the parsed-date entries of both
backup tiers; input is the prompt result, where none covers both EOF
and the empty line (the Deno prompt maps an empty answer to the absent
default value, null). -/
def selectBackupFile (files : List BackupFile) (input : Option String) :
    SelectResult :=
  if files.isEmpty then SelectResult.noBackups
  else
    match input with
    | none => SelectResult.cancelled
    | some s =>
      match parseIntJS s with
      | none => SelectResult.invalid
      | some k =>
        if k < 0 || (files.length : Int) < k then SelectResult.invalid
        else if k == 0 then SelectResult.cancelled
        else
          SelectResult.selected
            (((sortBackups files).getD (k.toNat - 1)
              { filename := "", date := none, fullPath := "" }).fullPath)

/-- C9: with at least one backup listed, a null/empty input cancels
cleanly, input 0 cancels cleanly, a NaN or out-of-range selection is an
invalid-selection error with no retry, and an in-range k selects the
k-th entry of the sorted listing; the listing is a permutation of the
files ordered newest-first (undated entries last). -/
theorem C9_backup_selection (files : List BackupFile) (hne : files ≠ []) :
    (selectBackupFile files none = SelectResult.cancelled)
    ∧ (∀ s, parseIntJS s = none →
        selectBackupFile files (some s) = SelectResult.invalid)
    ∧ (∀ s k, parseIntJS s = some k → (k < 0 ∨ (files.length : Int) < k) →
        selectBackupFile files (some s) = SelectResult.invalid)
    ∧ (∀ s, parseIntJS s = some 0 →
        selectBackupFile files (some s) = SelectResult.cancelled)
    ∧ (∀ s k, parseIntJS s = some k → 1 ≤ k → k ≤ (files.length : Int) →
        selectBackupFile files (some s)
          = SelectResult.selected
              (((sortBackups files).getD (k.toNat - 1)
                { filename := "", date := none, fullPath := "" }).fullPath))
    ∧ (sortBackups files).Pairwise (fun a b => backupLE a b = true)
    ∧ (sortBackups files).Perm files := by
  have hempty : files.isEmpty = false := by
    simpa [List.isEmpty_iff] using hne
  refine ⟨?_, ?_, ?_, ?_, ?_, ?_, ?_⟩
  · simp [selectBackupFile, hempty]
  · intro s hs
    simp [selectBackupFile, hempty, hs]
  · intro s k hs hk
    have : (k < 0 || (files.length : Int) < k) = true := by
      rcases hk with hk | hk <;> simp [hk]
    simp [selectBackupFile, hempty, hs, this]
  · intro s hs
    simp [selectBackupFile, hempty, hs]
  · intro s k hs h1 h2
    have hge : ¬ k < 0 := by omega
    have hlt : ¬ (files.length : Int) < k := by omega
    have hz : ¬ k = 0 := by omega
    simp [selectBackupFile, hempty, hs, hge, hlt, hz]
  · exact List.sorted_mergeSort backupLE_trans backupLE_total files
  · exact List.mergeSort_perm files backupLE

/-- Witness for C9 at a concrete two-entry listing. -/
theorem C9_witness :
    (selectBackupFile
      [{ filename := "a.zip", date := some 5, fullPath := "/b/a.zip" },
       { filename := "b.zip", date := some 9, fullPath := "/b/b.zip" }]
      none = SelectResult.cancelled)
    ∧ (∀ s, parseIntJS s = none →
        selectBackupFile
          [{ filename := "a.zip", date := some 5, fullPath := "/b/a.zip" },
           { filename := "b.zip", date := some 9, fullPath := "/b/b.zip" }]
          (some s) = SelectResult.invalid)
    ∧ (∀ s k, parseIntJS s = some k → (k < 0 ∨ ((2 : Nat) : Int) < k) →
        selectBackupFile
          [{ filename := "a.zip", date := some 5, fullPath := "/b/a.zip" },
           { filename := "b.zip", date := some 9, fullPath := "/b/b.zip" }]
          (some s) = SelectResult.invalid)
    ∧ (∀ s, parseIntJS s = some 0 →
        selectBackupFile
          [{ filename := "a.zip", date := some 5, fullPath := "/b/a.zip" },
           { filename := "b.zip", date := some 9, fullPath := "/b/b.zip" }]
          (some s) = SelectResult.cancelled)
    ∧ (∀ s k, parseIntJS s = some k → 1 ≤ k → k ≤ ((2 : Nat) : Int) →
        selectBackupFile
          [{ filename := "a.zip", date := some 5, fullPath := "/b/a.zip" },
           { filename := "b.zip", date := some 9, fullPath := "/b/b.zip" }]
          (some s)
          = SelectResult.selected
              (((sortBackups
                  [{ filename := "a.zip", date := some 5, fullPath := "/b/a.zip" },
                   { filename := "b.zip", date := some 9, fullPath := "/b/b.zip" }]).getD
                  (k.toNat - 1)
                { filename := "", date := none, fullPath := "" }).fullPath))
    ∧ (sortBackups
        [{ filename := "a.zip", date := some 5, fullPath := "/b/a.zip" },
         { filename := "b.zip", date := some 9, fullPath := "/b/b.zip" }]).Pairwise
        (fun a b => backupLE a b = true)
    ∧ (sortBackups
        [{ filename := "a.zip", date := some 5, fullPath := "/b/a.zip" },
         { filename := "b.zip", date := some 9, fullPath := "/b/b.zip" }]).Perm
        [{ filename := "a.zip", date := some 5, fullPath := "/b/a.zip" },
         { filename := "b.zip", date := some 9, fullPath := "/b/b.zip" }] := by
  have h := C9_backup_selection
    [{ filename := "a.zip", date := some 5, fullPath := "/b/a.zip" },
     { filename := "b.zip", date := some 9, fullPath := "/b/b.zip" }]
    (by decide)
  simpa using h

/-- Per-operation component selection (the ComponentOptions interface of
src/main.ts): the two core config directories are always included and
the dconf blob plus theme/icon/font locations toggle independently. -/
structure ComponentOptions where
  userThemes : Bool
  systemThemes : Bool
  userIcons : Bool
  userIconsAlt : Bool
  systemIcons : Bool
  userFonts : Bool
  userFontsAlt : Bool
  systemFonts : Bool
  dconf : Bool
deriving Repr, DecidableEq

/-- Live desktop configuration state: one optional file tree per source
location (none models an absent directory) plus the dconf namespace
content as the text its dump would produce (empty string models an
empty namespace). -/
structure LiveState where
  share : Option FileMap
  config : Option FileMap
  userThemes : Option FileMap
  systemThemes : Option FileMap
  userIcons : Option FileMap
  userIconsAlt : Option FileMap
  systemIcons : Option FileMap
  userFonts : Option FileMap
  userFontsAlt : Option FileMap
  systemFonts : Option FileMap
  dconf : String
deriving Repr, DecidableEq

/-- Content of a profile or backup archive: one optional staged subtree
per named subdirectory of the scratch area, plus the optional dconf
settings file.  pack and unpack are modelled as faithful per the
archive adapter contract. -/
structure Archive where
  share : Option FileMap
  config : Option FileMap
  userThemes : Option FileMap
  systemThemes : Option FileMap
  userIcons : Option FileMap
  userIconsAlt : Option FileMap
  systemIcons : Option FileMap
  userFonts : Option FileMap
  userFontsAlt : Option FileMap
  systemFonts : Option FileMap
  dconfFile : Option String
deriving Repr, DecidableEq

/-- Capture of one toggleable source location (the repeated
enable-check / exists-check / copy pattern of
copyThemeIconAndFontDirectories): disabled or absent locations leave no
staged subtree, present ones are copied verbatim. -/
def stageComponent (enabled : Bool) (live : Option FileMap) : Option FileMap :=
  if enabled then live else none

/-- Capture side of createProfile / createTimestampedBackup (src/main.ts
lines 609-667 and 699-788): the share and config trees are always
staged when present (copyDirectoryContents skips an absent source with
a warning), toggleable locations are staged per the selection, and the
dconf dump file is written only when the dconf component is enabled,
the dump command succeeds (dconfDumpOk) and its stdout is nonempty. -/
def stageSettings (s : LiveState) (o : ComponentOptions) (dconfDumpOk : Bool) :
    Archive :=
  { share := s.share
    config := s.config
    userThemes := stageComponent o.userThemes s.userThemes
    systemThemes := stageComponent o.systemThemes s.systemThemes
    userIcons := stageComponent o.userIcons s.userIcons
    userIconsAlt := stageComponent o.userIconsAlt s.userIconsAlt
    systemIcons := stageComponent o.systemIcons s.systemIcons
    userFonts := stageComponent o.userFonts s.userFonts
    userFontsAlt := stageComponent o.userFontsAlt s.userFontsAlt
    systemFonts := stageComponent o.systemFonts s.systemFonts
    dconfFile :=
      if o.dconf && dconfDumpOk && !(s.dconf == "") then some s.dconf else none }

/-- Overwriting copy of src into dst (the copy overwrite:true semantics
of copyDirectoryContents at a restore target): entries of src win,
entries only in dst survive. -/
def FileMap.override (dst src : FileMap) : FileMap := src ++ dst

/-- Restore of one toggleable location (restoreThemeIconAndFontDirectories
pattern): only when the component is enabled and its subtree is present
in the archive is the live directory created (if absent) and the staged
contents copied over it; otherwise the live location is untouched. -/
def restoreComponent (enabled : Bool) (staged live : Option FileMap) :
    Option FileMap :=
  if enabled then
    match staged with
    | some m => some (FileMap.override (live.getD []) m)
    | none => live
  else live

/-- Destructive apply step of restoreSettingsFromZip (src/main.ts lines
1176-1334): the share and config directories are emptied and recreated,
then overwritten with the staged trees (empty when the archive lacks
them); toggleable locations are merged per restoreComponent; when the
dconf component is enabled and the settings file is present, the
namespace is reset and the blob loaded unless it trims to empty (reset
and load modelled as succeeding, per the settings adapter contract). -/
def applySettings (a : Archive) (o : ComponentOptions) (s : LiveState) :
    LiveState :=
  { share := some (a.share.getD [])
    config := some (a.config.getD [])
    userThemes := restoreComponent o.userThemes a.userThemes s.userThemes
    systemThemes := restoreComponent o.systemThemes a.systemThemes s.systemThemes
    userIcons := restoreComponent o.userIcons a.userIcons s.userIcons
    userIconsAlt := restoreComponent o.userIconsAlt a.userIconsAlt s.userIconsAlt
    systemIcons := restoreComponent o.systemIcons a.systemIcons s.systemIcons
    userFonts := restoreComponent o.userFonts a.userFonts s.userFonts
    userFontsAlt := restoreComponent o.userFontsAlt a.userFontsAlt s.userFontsAlt
    systemFonts := restoreComponent o.systemFonts a.systemFonts s.systemFonts
    dconf :=
      if o.dconf then
        match a.dconfFile with
        | some blob => if blob.trim == "" then "" else blob
        | none => s.dconf
      else s.dconf }

/-- Capture followed by apply of the produced archive with the same
component selection, with all external adapter calls succeeding. -/
def roundTrip (s : LiveState) (o : ComponentOptions) : LiveState :=
  applySettings (stageSettings s o true) o s

/-- Lookup through an optional file tree. -/
def OptFind (m : Option FileMap) (path : String) : Option String :=
  match m with
  | none => none
  | some fm => fm.find path

/-- Byte-for-byte agreement of one source location: same existence and
the same content at every path. -/
def LocEquiv (a b : Option FileMap) : Prop :=
  a.isSome = b.isSome ∧ ∀ path, OptFind a path = OptFind b path

theorem LocEquiv.rfl (a : Option FileMap) : LocEquiv a a :=
  ⟨Eq.refl _, fun _ => Eq.refl _⟩

theorem FileMap.find_append_self (m : FileMap) (path : String) :
    FileMap.find (m ++ m) path = FileMap.find m path := by
  unfold FileMap.find
  rw [List.find?_append]
  cases h : List.find? (fun e => e.1 == path) m <;> simp [h]

theorem restoreComponent_stage_roundtrip (enabled : Bool)
    (live : Option FileMap) :
    LocEquiv (restoreComponent enabled (stageComponent enabled live) live)
      live := by
  cases enabled with
  | false => exact LocEquiv.rfl live
  | true =>
    cases live with
    | none => exact LocEquiv.rfl none
    | some m =>
      constructor
      · rfl
      · intro path
        simp [OptFind, restoreComponent, stageComponent, FileMap.override,
          FileMap.find_append_self]

theorem restoreComponent_disabled (staged live : Option FileMap) :
    restoreComponent false staged live = live := rfl

/-- All components enabled, the default selection of switch and
restore. -/
def allComponents : ComponentOptions :=
  { userThemes := true, systemThemes := true, userIcons := true,
    userIconsAlt := true, systemIcons := true, userFonts := true,
    userFontsAlt := true, systemFonts := true, dconf := true }

/-- Live state in which every source location is absent and the dconf
namespace is empty. -/
def emptyLive : LiveState :=
  { share := none, config := none, userThemes := none, systemThemes := none,
    userIcons := none, userIconsAlt := none, systemIcons := none,
    userFonts := none, userFontsAlt := none, systemFonts := none,
    dconf := "" }

/-- C3 counterexample: from a starting state where the core share
directory is absent, capture-then-apply with the full selection leaves
that directory existing (empty) instead of reproducing its absence, so
the original source trees are not reproduced for every starting
state. -/
theorem C3_counterexample :
    (roundTrip emptyLive allComponents).share.isSome = true
    ∧ emptyLive.share.isSome = false := by
  constructor <;> rfl

/-- C3 (amended): when the two core configuration directories exist at
capture time, capture-then-apply with one selection reproduces every
source location byte-for-byte (same existence, same content at every
path) and leaves the live locations of disabled components literally
untouched; a core directory absent at capture is instead recreated
empty by apply (see the counterexample). -/
theorem C3_round_trip_amended (s : LiveState) (o : ComponentOptions)
    (hshare : s.share.isSome = true) (hconfig : s.config.isSome = true) :
    (LocEquiv (roundTrip s o).share s.share
      ∧ LocEquiv (roundTrip s o).config s.config
      ∧ LocEquiv (roundTrip s o).userThemes s.userThemes
      ∧ LocEquiv (roundTrip s o).systemThemes s.systemThemes
      ∧ LocEquiv (roundTrip s o).userIcons s.userIcons
      ∧ LocEquiv (roundTrip s o).userIconsAlt s.userIconsAlt
      ∧ LocEquiv (roundTrip s o).systemIcons s.systemIcons
      ∧ LocEquiv (roundTrip s o).userFonts s.userFonts
      ∧ LocEquiv (roundTrip s o).userFontsAlt s.userFontsAlt
      ∧ LocEquiv (roundTrip s o).systemFonts s.systemFonts)
    ∧ (o.userThemes = false → (roundTrip s o).userThemes = s.userThemes)
    ∧ (o.systemThemes = false → (roundTrip s o).systemThemes = s.systemThemes)
    ∧ (o.userIcons = false → (roundTrip s o).userIcons = s.userIcons)
    ∧ (o.userIconsAlt = false → (roundTrip s o).userIconsAlt = s.userIconsAlt)
    ∧ (o.systemIcons = false → (roundTrip s o).systemIcons = s.systemIcons)
    ∧ (o.userFonts = false → (roundTrip s o).userFonts = s.userFonts)
    ∧ (o.userFontsAlt = false → (roundTrip s o).userFontsAlt = s.userFontsAlt)
    ∧ (o.systemFonts = false → (roundTrip s o).systemFonts = s.systemFonts)
    ∧ (o.dconf = false → (roundTrip s o).dconf = s.dconf) := by
  obtain ⟨ms, hms⟩ := Option.isSome_iff_exists.mp hshare
  obtain ⟨mc, hmc⟩ := Option.isSome_iff_exists.mp hconfig
  refine ⟨⟨?_, ?_, ?_, ?_, ?_, ?_, ?_, ?_, ?_, ?_⟩, ?_, ?_, ?_, ?_, ?_, ?_, ?_, ?_, ?_⟩
  · show LocEquiv (some ((stageSettings s o true).share.getD [])) s.share
    rw [show (stageSettings s o true).share = s.share from Eq.refl _, hms]
    exact LocEquiv.rfl (some ms)
  · show LocEquiv (some ((stageSettings s o true).config.getD [])) s.config
    rw [show (stageSettings s o true).config = s.config from Eq.refl _, hmc]
    exact LocEquiv.rfl (some mc)
  · exact restoreComponent_stage_roundtrip o.userThemes s.userThemes
  · exact restoreComponent_stage_roundtrip o.systemThemes s.systemThemes
  · exact restoreComponent_stage_roundtrip o.userIcons s.userIcons
  · exact restoreComponent_stage_roundtrip o.userIconsAlt s.userIconsAlt
  · exact restoreComponent_stage_roundtrip o.systemIcons s.systemIcons
  · exact restoreComponent_stage_roundtrip o.userFonts s.userFonts
  · exact restoreComponent_stage_roundtrip o.userFontsAlt s.userFontsAlt
  · exact restoreComponent_stage_roundtrip o.systemFonts s.systemFonts
  all_goals intro h
  all_goals simp [roundTrip, applySettings, stageSettings, restoreComponent, h]

/-- Concrete live state with both core directories present, one user
theme tree, and a nonempty dconf namespace. -/
def c3SampleLive : LiveState :=
  { share := some [("applets/a.json", "x")], config := some [],
    userThemes := some [("Mint-Y/theme.css", "y")], systemThemes := none,
    userIcons := none, userIconsAlt := none, systemIcons := none,
    userFonts := none, userFontsAlt := none, systemFonts := none,
    dconf := "[panel] k=1" }

/-- Witness for C3 at a concrete state with both core directories
present and the full selection. -/
theorem C3_witness :
    LocEquiv (roundTrip c3SampleLive allComponents).share c3SampleLive.share
    ∧ LocEquiv (roundTrip c3SampleLive allComponents).userThemes
        c3SampleLive.userThemes :=
  ⟨(C3_round_trip_amended c3SampleLive allComponents rfl rfl).1.1,
   (C3_round_trip_amended c3SampleLive allComponents rfl rfl).1.2.2.1⟩

/-- Observable steps of the switch and restore flows, in program
order. -/
inductive Event where
  | confirmStart (ans : Bool)
  | extractArchive (ok : Bool)
  | backupAttempt (ok : Bool)
  | backupFailConfirm (ans : Bool)
  | warnBackupFailedContinuing
  | wipeLive
  | restoreFiles
  | registryWrite
deriving Repr, DecidableEq

/-- Result of a restoreSettingsFromZip call: the boolean return value,
the live state afterwards, and the emitted event trace. -/
structure RestoreOut where
  ok : Bool
  live : LiveState
  events : List Event
deriving Repr, DecidableEq

/-- Model of restoreSettingsFromZip (src/main.ts lines 1105-1339).
archive is the content found at the zip path (none when the file does
not exist), unzipOk the external unzip exit status, backupZipOk the
outcome of the automatic pre-restore backup.  Extraction happens before
anything else; the pre-restore backup is attempted only on the
non-switch path without skipBackup, and its failure merely warns before
the destructive wipe-and-restore proceeds. -/
def restoreSettingsFromZip (archive : Option Archive) (unzipOk : Bool)
    (isProfileSwitch : Bool) (opts : ComponentOptions) (skipBackup : Bool)
    (backupZipOk : Bool) (s : LiveState) : RestoreOut :=
  match archive with
  | none => { ok := false, live := s, events := [] }
  | some a =>
    if unzipOk then
      { ok := true
        live := applySettings a opts s
        events := Event.extractArchive true ::
          (if !isProfileSwitch && !skipBackup then
            Event.backupAttempt backupZipOk ::
              (if backupZipOk then [] else [Event.warnBackupFailedContinuing])
          else [])
          ++ [Event.wipeLive, Event.restoreFiles] }
    else
      { ok := false, live := s, events := [Event.extractArchive false] }

/-- C5: a missing archive file or a failed extraction makes
restoreSettingsFromZip return failure with every live configuration
location untouched, before any destructive step ran. -/
theorem C5_extraction_failure_leaves_live_untouched
    (archive : Option Archive) (unzipOk isProfileSwitch : Bool)
    (opts : ComponentOptions) (skipBackup backupZipOk : Bool) (s : LiveState)
    (h : archive = none ∨ unzipOk = false) :
    (restoreSettingsFromZip archive unzipOk isProfileSwitch opts skipBackup
        backupZipOk s).ok = false
    ∧ (restoreSettingsFromZip archive unzipOk isProfileSwitch opts skipBackup
        backupZipOk s).live = s
    ∧ Event.wipeLive ∉ (restoreSettingsFromZip archive unzipOk isProfileSwitch
        opts skipBackup backupZipOk s).events := by
  rcases h with h | h
  · subst h
    exact ⟨rfl, rfl, by simp [restoreSettingsFromZip]⟩
  · subst h
    cases archive with
    | none => exact ⟨rfl, rfl, by simp [restoreSettingsFromZip]⟩
    | some a => exact ⟨rfl, rfl, by simp [restoreSettingsFromZip]⟩

/-- Archive with no staged subtrees and no dconf file. -/
def emptyArchive : Archive :=
  { share := none, config := none, userThemes := none, systemThemes := none,
    userIcons := none, userIconsAlt := none, systemIcons := none,
    userFonts := none, userFontsAlt := none, systemFonts := none,
    dconfFile := none }

/-- Witness for C5 at a concrete corrupt-extraction call. -/
theorem C5_witness :
    (restoreSettingsFromZip (some emptyArchive) false false allComponents
        false true c3SampleLive).ok = false
    ∧ (restoreSettingsFromZip (some emptyArchive) false false allComponents
        false true c3SampleLive).live = c3SampleLive
    ∧ Event.wipeLive ∉ (restoreSettingsFromZip (some emptyArchive) false false
        allComponents false true c3SampleLive).events :=
  C5_extraction_failure_leaves_live_untouched (some emptyArchive) false false
    allComponents false true c3SampleLive (Or.inr rfl)

/-- Exit modes of the switchProfile command. -/
inductive ExitStatus where
  | success
  | userAbort
  | failure
deriving Repr, DecidableEq

/-- Result of a switchProfile call: exit mode, persisted registry, live
state, and event trace. -/
structure SwitchOut where
  status : ExitStatus
  registry : List Profile
  live : LiveState
  events : List Event
deriving Repr, DecidableEq

/-- Model of switchProfile (src/main.ts lines 1563-1670).  confirm1 is
the initial confirmation, backupZipOk the pre-switch backup outcome,
confirm2 the continue-without-backup confirmation, zipStore the content
of the filesystem at archive paths, now the timestamp of the registry
update.  Unless noBackup is set, the automatic backup is attempted
after the confirmation; when it fails, declining the second
confirmation aborts with no side effect, accepting proceeds.  The apply
step is restoreSettingsFromZip with the switch flags (its own backup
branch disabled); only on its success is the registry rewritten. -/
def switchProfile (profiles : List Profile) (name : String)
    (opts : ComponentOptions) (noBackup : Bool)
    (confirm1 backupZipOk confirm2 : Bool)
    (zipStore : String → Option Archive) (unzipOk : Bool)
    (s : LiveState) (now : String) : SwitchOut :=
  match profiles.find? (fun p => p.name == name) with
  | none => { status := ExitStatus.failure, registry := profiles, live := s,
              events := [] }
  | some prof =>
    if !confirm1 then
      { status := ExitStatus.userAbort, registry := profiles, live := s,
        events := [Event.confirmStart false] }
    else if !noBackup && !backupZipOk && !confirm2 then
      { status := ExitStatus.userAbort, registry := profiles, live := s,
        events := [Event.confirmStart true, Event.backupAttempt false,
          Event.backupFailConfirm false] }
    else
      let preEvents := Event.confirmStart true ::
        (if !noBackup then
          Event.backupAttempt backupZipOk ::
            (if backupZipOk then [] else [Event.backupFailConfirm true])
        else [])
      let r := restoreSettingsFromZip (zipStore prof.zipFile) unzipOk true opts
        true backupZipOk s
      if r.ok then
        { status := ExitStatus.success,
          registry := switchApply profiles name now,
          live := r.live,
          events := preEvents ++ r.events ++ [Event.registryWrite] }
      else
        { status := ExitStatus.failure, registry := profiles, live := r.live,
          events := preEvents ++ r.events }

/-- Recognizer for backup-attempt events. -/
def isBackupAttempt : Event → Bool
  | Event.backupAttempt _ => true
  | _ => false

/-- Trace fragment strictly before the first destructive wipe. -/
def eventsBeforeWipe (tr : List Event) : List Event :=
  tr.takeWhile (fun e => !(e == Event.wipeLive))

/-- C4 counterexample: on the restore path (restoreSettingsFromZip with
isProfileSwitch and skipBackup false) a failed automatic backup is
followed by the destructive wipe with only a warning: no second
confirmation event exists anywhere in the trace, contradicting the
claim that a failed backup always forces an affirmative second
confirmation before the apply step. -/
theorem C4_counterexample :
    Event.wipeLive ∈ (restoreSettingsFromZip (some emptyArchive) true false
      allComponents false false emptyLive).events
    ∧ ∀ b, Event.backupFailConfirm b ∉ (restoreSettingsFromZip
      (some emptyArchive) true false allComponents false false
      emptyLive).events := by
  constructor
  · simp [restoreSettingsFromZip]
  · intro b
    cases b <;> simp [restoreSettingsFromZip]

/-- C4 (amended): without the skip-backup flag, both flows attempt the
automatic backup before the destructive wipe.  On the switch flow a
failed backup additionally forces the second confirmation before the
wipe, and declining it aborts with registry, live state and trace free
of any mutation.  On the restore flow a failed backup only emits the
continuing warning before the wipe; no second confirmation is ever
asked there. -/
theorem C4_backup_before_mutate_amended
    (profiles : List Profile) (name : String) (opts : ComponentOptions)
    (backupZipOk confirm2 unzipOk : Bool)
    (zipStore : String → Option Archive) (s : LiveState) (now : String)
    (archive : Option Archive) :
    (Event.wipeLive ∈ (switchProfile profiles name opts false true backupZipOk
        confirm2 zipStore unzipOk s now).events →
      (eventsBeforeWipe (switchProfile profiles name opts false true
        backupZipOk confirm2 zipStore unzipOk s now).events).any isBackupAttempt
        = true
      ∧ (backupZipOk = false →
          Event.backupFailConfirm true ∈ eventsBeforeWipe (switchProfile
            profiles name opts false true backupZipOk confirm2 zipStore unzipOk
            s now).events))
    ∧ (backupZipOk = false → confirm2 = false →
        ∀ prof, profiles.find? (fun p => p.name == name) = some prof →
        (switchProfile profiles name opts false true backupZipOk confirm2
            zipStore unzipOk s now).status = ExitStatus.userAbort
        ∧ (switchProfile profiles name opts false true backupZipOk confirm2
            zipStore unzipOk s now).live = s
        ∧ (switchProfile profiles name opts false true backupZipOk confirm2
            zipStore unzipOk s now).registry = profiles
        ∧ Event.wipeLive ∉ (switchProfile profiles name opts false true
            backupZipOk confirm2 zipStore unzipOk s now).events)
    ∧ (Event.wipeLive ∈ (restoreSettingsFromZip archive unzipOk false opts
        false backupZipOk s).events →
      (eventsBeforeWipe (restoreSettingsFromZip archive unzipOk false opts
        false backupZipOk s).events).any isBackupAttempt = true
      ∧ (backupZipOk = false →
          Event.warnBackupFailedContinuing ∈ eventsBeforeWipe
            (restoreSettingsFromZip archive unzipOk false opts false
              backupZipOk s).events
          ∧ ∀ b, Event.backupFailConfirm b ∉ (restoreSettingsFromZip archive
              unzipOk false opts false backupZipOk s).events)) := by
  refine ⟨?_, ?_, ?_⟩
  · intro hw
    cases hfind : profiles.find? (fun p => p.name == name) with
    | none =>
      rw [switchProfile] at hw
      simp [hfind] at hw
    | some prof =>
      cases hz : zipStore prof.zipFile with
      | none =>
        rw [switchProfile] at hw
        cases backupZipOk <;> cases confirm2 <;>
          simp [hfind, hz, restoreSettingsFromZip] at hw
      | some a =>
        cases backupZipOk <;> cases confirm2 <;> cases unzipOk <;>
          simp_all [switchProfile, hfind, hz, restoreSettingsFromZip,
            eventsBeforeWipe, isBackupAttempt]
  · intro hb hc prof hfind
    subst hb
    subst hc
    simp [switchProfile, hfind]
  · intro hw
    cases archive with
    | none => simp [restoreSettingsFromZip] at hw
    | some a =>
      cases unzipOk with
      | false => simp [restoreSettingsFromZip] at hw
      | true =>
        cases backupZipOk <;>
          simp_all [restoreSettingsFromZip, eventsBeforeWipe, isBackupAttempt]

/-- Witness for C4 (amended) at a concrete switch whose backup fails
and whose second confirmation is declined. -/
theorem C4_witness :
    (switchProfile
      [{ name := "work", active := false, lastModified := "t0", zipFile := "w.zip" }]
      "work" allComponents false true false false (fun _ => some emptyArchive)
      true emptyLive "t1").status = ExitStatus.userAbort
    ∧ (switchProfile
      [{ name := "work", active := false, lastModified := "t0", zipFile := "w.zip" }]
      "work" allComponents false true false false (fun _ => some emptyArchive)
      true emptyLive "t1").registry
      = [{ name := "work", active := false, lastModified := "t0", zipFile := "w.zip" }] := by
  have h := (C4_backup_before_mutate_amended
    [{ name := "work", active := false, lastModified := "t0", zipFile := "w.zip" }]
    "work" allComponents false false true (fun _ => some emptyArchive)
    emptyLive "t1" (some emptyArchive)).2.1 rfl rfl
    { name := "work", active := false, lastModified := "t0", zipFile := "w.zip" }
    (by decide)
  exact ⟨h.1, h.2.2.1⟩

/-- Character class kept by the sanitizing regex of src/main.ts
(letters, digits, hyphen, underscore). -/
def isAllowedNameChar (c : Char) : Bool :=
  c.isAlpha || c.isDigit || c == '-' || c == '_'

/-- Model of the name sanitizer used by import, export and the backup
name embedding: every character outside the allowed class is replaced
by an underscore. -/
def sanitizeName (s : String) : String :=
  String.mk (s.toList.map (fun c => if isAllowedNameChar c then c else '_'))

/-- Predicate for a string drawn entirely from the restricted name
character set. -/
def AllowedName (s : String) : Prop :=
  s.toList.all isAllowedNameChar = true

theorem sanitizeName_allowed (s : String) : AllowedName (sanitizeName s) := by
  unfold AllowedName sanitizeName
  apply List.all_eq_true.mpr
  intro c hc
  rcases List.mem_map.mp hc with ⟨d, _, rfl⟩
  by_cases hd : isAllowedNameChar d
  · simp [hd]
  · rw [if_neg hd]
    decide

/-- Import step stripping the leading archive-name marker, per the
case-insensitive anchored replace in importProfile. -/
def stripLeadingImportTag (s : String) : String :=
  if s.toLower.startsWith "cinnamon-profile-" then s.drop 17 else s

/-- Shape of the filesystem-safe timestamp inside an export filename
(digit positions marked d). -/
def stampShape : List Char := "dddd-dd-ddtdd-dd-dd-dddz".toList

/-- Matcher for the timestamp portion against stampShape. -/
def matchesShape (cs : List Char) : Bool :=
  cs.length == stampShape.length &&
    (List.zip cs stampShape).all
      (fun p => if p.2 == 'd' then p.1.isDigit else p.1 == p.2)

/-- Recognizer for the lowercased export-suffix tail of an import
filename. -/
def isExportStamp (cs : List Char) : Bool :=
  match cs with
  | '-' :: 'e' :: 'x' :: 'p' :: 'o' :: 'r' :: 't' :: '-' :: rest =>
      matchesShape rest
  | _ => false

/-- Import step stripping the trailing export timestamp, per the
case-insensitive anchored replace in importProfile. -/
def stripExportStamp (s : String) : String :=
  if 32 ≤ s.length && isExportStamp (s.toLower.toList.drop (s.length - 32))
  then s.dropRight 32
  else s

/-- Import name stage 1 (src/main.ts lines 1888-1894): sanitized
archive basename with both markers stripped, or the generated
fallback when that is empty. -/
def importNameFromFile (base nowMs : String) : String :=
  if sanitizeName (stripExportStamp (stripLeadingImportTag base)) == ""
  then "imported-" ++ nowMs
  else sanitizeName (stripExportStamp (stripLeadingImportTag base))

/-- Import name stage 2 (src/main.ts lines 1900-1918): the sanitized
metadata profileName overrides stage 1 when present. -/
def importNameAfterMeta (base : String) (metaName : Option String)
    (nowMs : String) : String :=
  match metaName with
  | some m => sanitizeName m
  | none => importNameFromFile base nowMs

/-- Import name stage 3 (src/main.ts lines 1930-1938): a non-null,
nonblank prompt answer overrides stage 2 after trimming and
sanitizing. -/
def importNameAfterInput (base : String) (metaName promptInput : Option String)
    (nowMs : String) : String :=
  match promptInput with
  | some t =>
      if t.trim == "" then importNameAfterMeta base metaName nowMs
      else sanitizeName t.trim
  | none => importNameAfterMeta base metaName nowMs

/-- Name stored by importProfile (src/main.ts lines 1888-1947, final
fallback at lines 1939-1947): the stage 3 name, or the generated
imported-profile name when it is still empty.  base is the archive
basename without extension, nowMs the decimal Date.now() value. -/
def importedProfileName (base : String) (metaName promptInput : Option String)
    (nowMs : String) : String :=
  if importNameAfterInput base metaName promptInput nowMs == ""
  then "imported-profile-" ++ nowMs
  else importNameAfterInput base metaName promptInput nowMs

theorem AllowedName.append (a b : String) (ha : AllowedName a)
    (hb : AllowedName b) : AllowedName (a ++ b) := by
  unfold AllowedName at *
  rw [show (a ++ b).toList = a.toList ++ b.toList by
    simp [String.toList, String.data_append]]
  rw [List.all_append, ha, hb]
  rfl

theorem importNameFromFile_allowed (base nowMs : String)
    (hnow : AllowedName nowMs) : AllowedName (importNameFromFile base nowMs) := by
  unfold importNameFromFile
  split
  · exact AllowedName.append _ _ (by unfold AllowedName; decide) hnow
  · exact sanitizeName_allowed _

theorem importNameAfterMeta_allowed (base : String) (metaName : Option String)
    (nowMs : String) (hnow : AllowedName nowMs) :
    AllowedName (importNameAfterMeta base metaName nowMs) := by
  cases metaName with
  | some m => exact sanitizeName_allowed m
  | none => exact importNameFromFile_allowed base nowMs hnow

theorem importNameAfterInput_allowed (base : String)
    (metaName promptInput : Option String) (nowMs : String)
    (hnow : AllowedName nowMs) :
    AllowedName (importNameAfterInput base metaName promptInput nowMs) := by
  cases promptInput with
  | some t =>
    show AllowedName
      (if t.trim == "" then importNameAfterMeta base metaName nowMs
       else sanitizeName t.trim)
    by_cases ht : t.trim == ""
    · rw [if_pos ht]
      exact importNameAfterMeta_allowed base metaName nowMs hnow
    · rw [if_neg ht]
      exact sanitizeName_allowed _
  | none => exact importNameAfterMeta_allowed base metaName nowMs hnow

/-- C7 counterexample: createProfile stores the user-provided name
verbatim, so creating a profile named with a space and an exclamation
mark places exactly that unsanitized string in the registry. -/
theorem C7_counterexample :
    ((createProfile [] "my profile!" "t0" "p.zip" true).registry).map
        (fun p => p.name) = ["my profile!"]
    ∧ ("my profile!".toList.all isAllowedNameChar) = false := by
  constructor
  · rfl
  · rfl

/-- C7 (amended): every profile name stored by the import operation,
including both generated fallbacks, consists only of letters, digits,
hyphen and underscore (given that the embedded Date.now() value is
decimal digits); the create operation, by contrast, stores the
user-provided name with no sanitization at all. -/
theorem C7_import_sanitizes_create_does_not
    (base : String) (metaName promptInput : Option String) (nowMs : String)
    (hnow : ∀ c ∈ nowMs.toList, c.isDigit = true)
    (ps : List Profile) (name now zipFile : String)
    (hsucc : (createProfile ps name now zipFile true).error = none) :
    AllowedName (importedProfileName base metaName promptInput nowMs)
    ∧ ((createProfile ps name now zipFile true).registry).map (fun p => p.name)
        = ps.map (fun p => p.name) ++ [name] := by
  have hnow' : AllowedName nowMs := by
    unfold AllowedName
    apply List.all_eq_true.mpr
    intro c hc
    simp [isAllowedNameChar, hnow c hc]
  constructor
  · unfold importedProfileName
    split
    · exact AllowedName.append _ _ (by unfold AllowedName; decide) hnow'
    · exact importNameAfterInput_allowed base metaName promptInput nowMs hnow'
  · unfold createProfile at hsucc ⊢
    by_cases hdup : ps.any (fun p => p.name == name)
    · rw [if_pos hdup] at hsucc
      exact absurd hsucc (by simp)
    · rw [if_neg hdup] at hsucc ⊢
      simp only [if_true]
      simp only [List.map_append, List.map_map]
      have hnames :
          (ps.map ((fun p => p.name) ∘ fun p => { p with active := false }))
            = ps.map (fun p => p.name) := by
        apply List.map_congr_left
        intro a _
        rfl
      rw [hnames]
      rfl

/-- Witness for C7 (amended) at a concrete import whose prompt answer
carries disallowed characters, and a concrete create. -/
theorem C7_witness :
    AllowedName (importedProfileName "cinnamon-profile-my desk" none
      (some "My Desk!") "1750000000000")
    ∧ ((createProfile [] "plain" "t0" "p.zip" true).registry).map
        (fun p => p.name) = ([] : List Profile).map (fun p => p.name) ++ ["plain"] :=
  C7_import_sanitizes_create_does_not "cinnamon-profile-my desk" none
    (some "My Desk!") "1750000000000" (by decide) [] "plain" "t0" "p.zip" rfl

end CinnamonProfileManager
